import Mathlib

/-!
Shallow embedding of `scripts/fetch_standard_codebook.py` (Embeddenator
standard baseline codebook fetcher) and verification of its specified
properties.

Modelling choices:
- file paths are lists of components (`FPath`), `/` on `pathlib.Path`
  becomes list append;
- the filesystem is a pair of maps: file contents (`FPath → Option Bytes`)
  and existing directories (`FPath → Bool`);
- the network is a map from URL to the bytes the download would produce,
  `none` meaning the request raises;
- SHA-256 itself is an oracle parameter `hash : Bytes → String` (the script
  only compares digest strings for equality, it never inspects their
  structure);
- an uncaught Python exception is the `Outcome.crashed` result, a
  `return n` from `main` is `Outcome.exited n`.
-/

namespace SBCB

abbrev Bytes := List Nat

abbrev FPath := List String

/-- The filesystem state: file contents plus the set of directories. -/
structure FS where
  files : FPath → Option Bytes
  dirs : FPath → Bool

/-- Write a file (`open("wb")` + full write, or `write_bytes`). -/
def FS.write (fs : FS) (p : FPath) (c : Bytes) : FS :=
  { fs with files := fun q => if q = p then some c else fs.files q }

/-- Models `Path.unlink(missing_ok=True)`. -/
def FS.del (fs : FS) (p : FPath) : FS :=
  { fs with files := fun q => if q = p then none else fs.files q }

/-- Models `Path.mkdir(parents=True, exist_ok=True)`: the directory and all its
ancestors come to exist. -/
def FS.mkdirAll (fs : FS) (p : FPath) : FS :=
  { fs with dirs := fun q => q.isPrefixOf p || fs.dirs q }

/-- Models `src.replace(dst)`: atomic rename over any existing destination. -/
def FS.rename (fs : FS) (src dst : FPath) : FS :=
  match fs.files src with
  | some c => (fs.del src).write dst c
  | none => fs

/-- Python `str.strip()` (whitespace from both ends). -/
def pyStrip (s : String) : String :=
  String.mk (((s.data.dropWhile Char.isWhitespace).reverse.dropWhile
    Char.isWhitespace).reverse)

/-- Python `str.lower()` on one character (ASCII range, which covers hex digests). -/
def lowerChar (c : Char) : Char :=
  if 65 ≤ c.toNat ∧ c.toNat ≤ 90 then Char.ofNat (c.toNat + 32) else c

/-- Python `str.lower()`. -/
def pyLower (s : String) : String :=
  String.mk (s.data.map lowerChar)

/-- Line 88: `(artifact.get("sha256_hex") or "").strip().lower()`. -/
def normHex (o : Option String) : String :=
  pyLower (pyStrip (o.getD ""))

/-- Python truthiness of an optional string (`if not filename:`):
`None` and `""` are falsy. -/
def pyTruthy (o : Option String) : Bool :=
  match o with
  | none => false
  | some s => decide (s ≠ "")

/-- The `artifact` object of a tier entry: `filename`, `sha256_hex`, `urls`,
each possibly absent. -/
structure Artifact where
  filename : Option String
  sha256_hex : Option String
  urls : Option (List String)
deriving DecidableEq

/-- One entry of the manifest field `tiers`. -/
structure TierEntry where
  tier : Option String
  artifact : Option Artifact
deriving DecidableEq

/-- The parsed manifest document. -/
structure Manifest where
  family : Option String
  content_version : Option String
  tiers : List TierEntry
deriving DecidableEq

/-- Lines 72-76: scan `manifest.get("tiers", [])` in order, first entry whose
`tier` field equals the requested tier. -/
def findTier (tiers : List TierEntry) (t : String) : Option TierEntry :=
  tiers.find? (fun e => e.tier == some t)

/-- Line 86: `tier_entry.get` of the artifact object, defaulting to empty. -/
def artOf (e : TierEntry) : Artifact :=
  e.artifact.getD { filename := none, sha256_hex := none, urls := none }

/-- The command-line arguments after parsing. -/
structure Args where
  manifest : String
  tier : String
  cache_root : Option String
  output : Option FPath
  require : Bool

/-- The world a run observes: the parsed manifest (none = file absent),
the filesystem, the network, and the environment. -/
structure World where
  manifest : Option Manifest
  fs : FS
  net : String → Option Bytes
  xdg : Option String
  home : String

/-- How the process terminates: a `return` code from `main`, or an uncaught
exception (Python then exits with a traceback, code 1 — neither 0 nor 2). -/
inductive Outcome where
  | exited (code : Nat)
  | crashed
deriving DecidableEq

/-- Observable result of one invocation. -/
structure RunResult where
  outcome : Outcome
  fs : FS
  stdout : List String
  stderrLines : List String
  downloads : List String

/-- Models `_xdg_cache_dir` (lines 24-28). -/
def xdgCacheDir (w : World) : FPath :=
  match w.xdg with
  | some x => [x]
  | none => [w.home, ".cache"]

/-- Models `_default_cache_root` (lines 31-32). -/
def defaultCacheRoot (w : World) : FPath :=
  xdgCacheDir w ++ ["embeddenator", "codebooks"]

/-- Line 99: `--cache-root` if given, else the XDG default. -/
def cacheRootOf (args : Args) (w : World) : FPath :=
  match args.cache_root with
  | some r => [r]
  | none => defaultCacheRoot w

/-- Lines 100-102: `cache_root / family / content_version / filename`. -/
def cachedPathOf (args : Args) (w : World) (fam cv filename : String) : FPath :=
  cacheRootOf args w ++ [fam, cv, filename]

/-- Models `str(path)`. -/
def pathStr (p : FPath) : String :=
  String.intercalate "/" p

/-- The exception captured as `last_err` by one failed attempt. -/
inductive FetchErr where
  | downloadFailed (url : String)
  | shaMismatch (expected got : String)
deriving DecidableEq

/-- Rendering of `last_err` into the final failure message. -/
def errStr : Option FetchErr → String
  | none => "None"
  | some (.downloadFailed u) => "download failed: " ++ u
  | some (.shaMismatch e g) => "SHA256 mismatch: expected " ++ e ++ ", got " ++ g

/-- The fresh temporary directory from `tempfile.TemporaryDirectory()`. -/
def tmpDir : FPath := ["tmp-fetch"]

/-- Result of the download loop of lines 123-137. -/
inductive LoopOut where
  | installed (fs : FS) (trace : List String)
  | exhausted (fs : FS) (lastErr : Option FetchErr) (trace : List String)

def LoopOut.fsOut : LoopOut → FS
  | .installed f _ => f
  | .exhausted f _ _ => f

def LoopOut.trace : LoopOut → List String
  | .installed _ t => t
  | .exhausted _ _ t => t

/-- Lines 123-137: try each URL in order; `_download` into `tmp`, verify when
a digest is declared, atomically `replace` into the cache and `break`; on any
exception record it as `last_err`, unlink `tmp`, try the next URL.  The
accumulator `trace` records the URLs actually attempted (network activity). -/
def downloadLoop (hash : Bytes → String) (net : String → Option Bytes)
    (shaHex : String) (tmp cached : FPath) :
    List String → FS → Option FetchErr → List String → LoopOut
  | [], fs, lastErr, trace => .exhausted fs lastErr trace
  | u :: rest, fs, _, trace =>
    match net u with
    | none =>
        downloadLoop hash net shaHex tmp cached rest (fs.del tmp)
          (some (.downloadFailed u)) (trace ++ [u])
    | some c =>
        if shaHex ≠ "" ∧ hash c ≠ shaHex then
          downloadLoop hash net shaHex tmp cached rest ((fs.write tmp c).del tmp)
            (some (.shaMismatch shaHex (hash c))) (trace ++ [u])
        else
          .installed ((fs.write tmp c).rename tmp cached) (trace ++ [u])

/-- The soft-missing return pattern (lines 78-84, 91-97, 111-117, 138-144):
with `--require` print to stderr and return 2, otherwise print and return 0. -/
def softMiss (args : Args) (fs : FS) (msg : String) : RunResult :=
  if args.require then
    { outcome := .exited 2, fs := fs, stdout := [], stderrLines := [msg],
      downloads := [] }
  else
    { outcome := .exited 0, fs := fs, stdout := [msg], stderrLines := [],
      downloads := [] }

/-- The condition of lines 104-106 evaluated against a filesystem: the cache
file exists and its computed digest equals the (normalized) expected digest. -/
def cacheHitOK (hash : Bytes → String) (shaHex : String) (fs : FS)
    (p : FPath) : Bool :=
  match fs.files p with
  | some c => decide (hash c = shaHex)
  | none => false

/-- Lines 111-153: the part of `main` after the cache check, starting with the
`urls` test, then the download loop, then the optional `--output` copy. -/
def fetchPhase (hash : Bytes → String) (net : String → Option Bytes)
    (args : Args) (shaHex filename : String) (cachedPath : FPath)
    (urls : List String) (fs : FS) : RunResult :=
  if urls = [] then
    softMiss args fs ("No URLs in manifest for tier " ++ args.tier ++ "; cannot fetch")
  else
    match downloadLoop hash net shaHex (tmpDir ++ [filename ++ ".tmp"]) cachedPath
        urls fs none [] with
    | .exhausted fs2 lastErr trace =>
        { softMiss args fs2
            ("Failed to fetch tier " ++ args.tier ++ ": " ++ errStr lastErr) with
          downloads := trace }
    | .installed fs2 trace =>
        match args.output with
        | some out =>
            match fs2.files cachedPath with
            | some content =>
                { outcome := .exited 0,
                  fs := (fs2.mkdirAll out.dropLast).write out content,
                  stdout := [pathStr out], stderrLines := [], downloads := trace }
            | none =>
                { outcome := .crashed, fs := fs2, stdout := [],
                  stderrLines := [], downloads := trace }
        | none =>
            { outcome := .exited 0, fs := fs2, stdout := [pathStr cachedPath],
              stderrLines := [], downloads := trace }

/-- Models `main` (lines 53-154), after argument parsing, as a function of the
arguments and the observed world. -/
def runFetch (hash : Bytes → String) (args : Args) (w : World) : RunResult :=
  match w.manifest with
  | none =>
      { outcome := .exited 2, fs := w.fs, stdout := [],
        stderrLines := ["Manifest not found: " ++ args.manifest], downloads := [] }
  | some m =>
      match findTier m.tiers args.tier with
      | none =>
          softMiss args w.fs ("Tier " ++ args.tier ++ " not present in manifest")
      | some e =>
          let shaHex := normHex (artOf e).sha256_hex
          let urls := (artOf e).urls.getD []
          if pyTruthy (artOf e).filename then
            let filename := (artOf e).filename.getD ""
            match m.family, m.content_version with
            | some fam, some cv =>
                let fs1 := w.fs.mkdirAll (cacheRootOf args w ++ [fam, cv])
                let cachedPath := cachedPathOf args w fam cv filename
                match fs1.files cachedPath with
                | some c =>
                    if shaHex ≠ "" then
                      if hash c = shaHex then
                        { outcome := .exited 0, fs := fs1,
                          stdout := [pathStr cachedPath], stderrLines := [],
                          downloads := [] }
                      else
                        fetchPhase hash w.net args shaHex filename cachedPath urls
                          (fs1.del cachedPath)
                    else
                      fetchPhase hash w.net args shaHex filename cachedPath urls fs1
                | none =>
                    fetchPhase hash w.net args shaHex filename cachedPath urls fs1
            | _, _ =>
                { outcome := .crashed, fs := w.fs, stdout := [],
                  stderrLines := [], downloads := [] }
          else
            softMiss args w.fs ("Tier " ++ args.tier ++ " missing artifact filename")

/-- One attempt at a URL fails: the request raises, or (when a digest is
declared) the downloaded bytes hash to something else. -/
def badAttempt (hash : Bytes → String) (net : String → Option Bytes)
    (shaHex : String) (u : String) : Bool :=
  match net u with
  | none => true
  | some c => decide (shaHex ≠ "" ∧ hash c ≠ shaHex)

/-- The error a failing attempt at `u` records as `last_err`. -/
def attemptErr (hash : Bytes → String) (net : String → Option Bytes)
    (shaHex : String) (u : String) : FetchErr :=
  match net u with
  | none => .downloadFailed u
  | some c => .shaMismatch shaHex (hash c)

/-! Concrete instances used to exercise the model on closed inputs. -/

/-- A concrete digest oracle for closed evaluations. -/
def demoHash (b : Bytes) : String :=
  if b = [1, 2, 3] then "abc123" else if b = [7] then "def777" else "zzz999"

/-- The empty filesystem. -/
def emptyFS : FS := { files := fun _ => none, dirs := fun _ => false }

/-- A filesystem holding exactly one file. -/
def fsWith (p : FPath) (c : Bytes) : FS := emptyFS.write p c

/-- A one-tier manifest with the given digest field and mirror list. -/
def demoManifest (sha : Option String) (urls : List String) : Manifest :=
  { family := some "fam", content_version := some "v1",
    tiers := [{ tier := some "tiny",
                artifact := some { filename := some "f.bin", sha256_hex := sha,
                                   urls := some urls } }] }

/-- Arguments selecting tier `tiny` with an explicit cache root. -/
def demoArgs (req : Bool) (out : Option FPath) : Args :=
  { manifest := "codebooks/standard/manifest.json", tier := "tiny",
    cache_root := some "root", output := out, require := req }

/-- The cache path `demoArgs`/`demoManifest` resolve to. -/
def demoCached : FPath := ["root", "fam", "v1", "f.bin"]

/-- A network where only `u1` answers, with the bytes hashing to `abc123`. -/
def demoNetGood : String → Option Bytes :=
  fun u => if u = "u1" then some [1, 2, 3] else none

/-- A network where every request raises. -/
def demoNetBad : String → Option Bytes := fun _ => none

/-- A world over `demoManifest`. -/
def demoWorld (m : Manifest) (fs : FS) (net : String → Option Bytes) : World :=
  { manifest := some m, fs := fs, net := net, xdg := none, home := "home" }

/-- The tier entry `demoManifest` carries. -/
def demoEntry (sha : Option String) (urls : List String) : TierEntry :=
  { tier := some "tiny",
    artifact := some { filename := some "f.bin", sha256_hex := sha,
                       urls := some urls } }

/-- The temporary download path for filename `f.bin`. -/
def demoTmp : FPath := tmpDir ++ ["f.bin.tmp"]

/-- The filesystem after a successful verified download of `[1, 2, 3]`. -/
def demoInstalledFS : FS :=
  (emptyFS.write demoTmp [1, 2, 3]).rename demoTmp demoCached

/-- A manifest with no tiers at all. -/
def emptyTiersManifest : Manifest :=
  { family := some "fam", content_version := some "v1", tiers := [] }

/-- A manifest whose `tiny` entry has no artifact filename. -/
def noFileManifest : Manifest :=
  { family := some "fam", content_version := some "v1",
    tiers := [{ tier := some "tiny",
                artifact := some { filename := none, sha256_hex := none,
                                   urls := none } }] }

/-- A manifest missing the top-level `family` field. -/
def noFamManifest : Manifest :=
  { family := none, content_version := some "v1",
    tiers := [demoEntry (some "ABC123") ["u1"]] }

/-! Basic filesystem lemmas. -/

@[simp] theorem FS.mkdirAll_files (fs : FS) (p q : FPath) :
    (fs.mkdirAll p).files q = fs.files q := rfl

@[simp] theorem FS.write_files_self (fs : FS) (p : FPath) (c : Bytes) :
    (fs.write p c).files p = some c := by
  simp [FS.write]

theorem FS.write_files_other (fs : FS) (p q : FPath) (c : Bytes) (h : q ≠ p) :
    (fs.write p c).files q = fs.files q := by
  simp [FS.write, h]

@[simp] theorem FS.del_files_self (fs : FS) (p : FPath) :
    (fs.del p).files p = none := by
  simp [FS.del]

theorem FS.del_files_other (fs : FS) (p q : FPath) (h : q ≠ p) :
    (fs.del p).files q = fs.files q := by
  simp [FS.del, h]

/-! Download-loop lemmas (lines 123-137 of the source). -/

/-- When every URL of a non-empty list fails, the loop exhausts the whole
list in order, surfaces the error of the last URL, and leaves no temporary
file behind; no other file is touched. -/
theorem downloadLoop_all_fail (hash : Bytes → String) (net : String → Option Bytes)
    (shaHex : String) (tmp cached : FPath) :
    ∀ (urls : List String) (fs : FS) (err0 : Option FetchErr) (tr0 : List String),
      urls ≠ [] →
      (∀ u ∈ urls, badAttempt hash net shaHex u = true) →
      ∃ fs2, downloadLoop hash net shaHex tmp cached urls fs err0 tr0 =
          .exhausted fs2 ((urls.getLast?).map (attemptErr hash net shaHex)) (tr0 ++ urls) ∧
        fs2.files tmp = none ∧
        ∀ p, p ≠ tmp → fs2.files p = fs.files p := by
  intro urls
  induction urls with
  | nil => intro fs err0 tr0 hne _; exact absurd rfl hne
  | cons u rest ih =>
      intro fs err0 tr0 _ hbad
      have hbadu : badAttempt hash net shaHex u = true := hbad u (by simp)
      rcases eq_or_ne rest [] with hrest | hrestne
      · subst hrest
        cases hnet : net u with
        | none =>
            refine ⟨fs.del tmp, ?_, by simp, ?_⟩
            · simp [downloadLoop, hnet, attemptErr]
            · intro p hp; exact FS.del_files_other fs tmp p hp
        | some c =>
            have hcond : shaHex ≠ "" ∧ hash c ≠ shaHex := by
              have := hbadu
              simp [badAttempt, hnet] at this
              exact this
            refine ⟨(fs.write tmp c).del tmp, ?_, by simp, ?_⟩
            · simp only [downloadLoop, hnet]
              rw [if_pos hcond]
              simp [downloadLoop, attemptErr, hnet]
            · intro p hp
              rw [FS.del_files_other _ tmp p hp, FS.write_files_other fs tmp p c hp]
      · have hlast : (u :: rest).getLast? = rest.getLast? := by
          cases rest with
          | nil => exact absurd rfl hrestne
          | cons v vs => exact List.getLast?_cons_cons
        cases hnet : net u with
        | none =>
            obtain ⟨fs2, heq, htmp, hframe⟩ :=
              ih (fs.del tmp) (some (.downloadFailed u)) (tr0 ++ [u]) hrestne
                (fun v hv => hbad v (by simp [hv]))
            refine ⟨fs2, ?_, htmp, ?_⟩
            · simp only [downloadLoop, hnet]
              rw [heq, hlast]
              simp
            · intro p hp
              rw [hframe p hp, FS.del_files_other fs tmp p hp]
        | some c =>
            have hcond : shaHex ≠ "" ∧ hash c ≠ shaHex := by
              have := hbadu
              simp [badAttempt, hnet] at this
              exact this
            obtain ⟨fs2, heq, htmp, hframe⟩ :=
              ih ((fs.write tmp c).del tmp) (some (.shaMismatch shaHex (hash c)))
                (tr0 ++ [u]) hrestne (fun v hv => hbad v (by simp [hv]))
            refine ⟨fs2, ?_, htmp, ?_⟩
            · simp only [downloadLoop, hnet]
              rw [if_pos hcond, heq, hlast]
              simp
            · intro p hp
              rw [hframe p hp, FS.del_files_other _ tmp p hp,
                FS.write_files_other fs tmp p c hp]

/-- When every URL in `bad` fails and `u` succeeds, the loop attempts exactly
`bad ++ [u]` in order, installs the bytes served for `u` into the cache, and
(when a digest is declared) those bytes verified against it. -/
theorem downloadLoop_first_success (hash : Bytes → String) (net : String → Option Bytes)
    (shaHex : String) (tmp cached : FPath) :
    ∀ (bad : List String) (u : String) (rest : List String) (fs : FS)
      (err0 : Option FetchErr) (tr0 : List String),
      (∀ v ∈ bad, badAttempt hash net shaHex v = true) →
      badAttempt hash net shaHex u = false →
      ∃ c fs2, net u = some c ∧
        downloadLoop hash net shaHex tmp cached (bad ++ u :: rest) fs err0 tr0 =
          .installed fs2 (tr0 ++ (bad ++ [u])) ∧
        fs2.files cached = some c ∧
        (shaHex ≠ "" → hash c = shaHex) ∧
        (∀ p, p ≠ tmp → p ≠ cached → fs2.files p = fs.files p) := by
  intro bad
  induction bad with
  | nil =>
      intro u rest fs err0 tr0 _ hok
      cases hnet : net u with
      | none => simp [badAttempt, hnet] at hok
      | some c =>
          have hcond : ¬(shaHex ≠ "" ∧ hash c ≠ shaHex) := by
            have := hok
            simp [badAttempt, hnet] at this
            intro hand
            exact hand.2 (this hand.1)
          refine ⟨c, ((fs.write tmp c).rename tmp cached), rfl, ?_, ?_, ?_, ?_⟩
          · simp only [List.nil_append, downloadLoop, hnet]
            rw [if_neg hcond]
          · simp [FS.rename, FS.write, FS.del]
          · intro hsha
            by_contra hne
            exact hcond ⟨hsha, hne⟩
          · intro p hptmp hpc
            simp only [FS.rename, FS.write_files_self]
            rw [FS.write_files_other _ cached p _ hpc,
              FS.del_files_other _ tmp p hptmp,
              FS.write_files_other fs tmp p c hptmp]
  | cons v bs ih =>
      intro u rest fs err0 tr0 hbad hok
      have hbadv : badAttempt hash net shaHex v = true := hbad v (by simp)
      cases hnet : net v with
      | none =>
          obtain ⟨c, fs2, hc, heq, hcache, hver, hframe⟩ :=
            ih u rest (fs.del tmp) (some (.downloadFailed v)) (tr0 ++ [v])
              (fun x hx => hbad x (by simp [hx])) hok
          refine ⟨c, fs2, hc, ?_, hcache, hver, ?_⟩
          · simp only [List.cons_append, downloadLoop, hnet]
            exact heq.trans (by simp)
          · intro p hptmp hpc
            rw [hframe p hptmp hpc, FS.del_files_other fs tmp p hptmp]
      | some cv0 =>
          have hcond : shaHex ≠ "" ∧ hash cv0 ≠ shaHex := by
            have := hbadv
            simp [badAttempt, hnet] at this
            exact this
          obtain ⟨c, fs2, hc, heq, hcache, hver, hframe⟩ :=
            ih u rest ((fs.write tmp cv0).del tmp) (some (.shaMismatch shaHex (hash cv0)))
              (tr0 ++ [v]) (fun x hx => hbad x (by simp [hx])) hok
          refine ⟨c, fs2, hc, ?_, hcache, hver, ?_⟩
          · simp only [List.cons_append, downloadLoop, hnet]
            rw [if_pos hcond]
            exact heq.trans (by simp)
          · intro p hptmp hpc
            rw [hframe p hptmp hpc, FS.del_files_other _ tmp p hptmp,
              FS.write_files_other fs tmp p cv0 hptmp]

/-- The trace only grows: whatever the loop returns, its trace extends the
accumulator. -/
theorem downloadLoop_trace_ext (hash : Bytes → String) (net : String → Option Bytes)
    (shaHex : String) (tmp cached : FPath) :
    ∀ (urls : List String) (fs : FS) (err0 : Option FetchErr) (tr0 : List String),
      ∃ t, (downloadLoop hash net shaHex tmp cached urls fs err0 tr0).trace = tr0 ++ t := by
  intro urls
  induction urls with
  | nil => intro fs err0 tr0; exact ⟨[], by simp [downloadLoop, LoopOut.trace]⟩
  | cons u rest ih =>
      intro fs err0 tr0
      cases hnet : net u with
      | none =>
          obtain ⟨t, ht⟩ := ih (fs.del tmp) (some (.downloadFailed u)) (tr0 ++ [u])
          refine ⟨u :: t, ?_⟩
          simp only [downloadLoop, hnet]
          rw [ht]
          simp
      | some c =>
          by_cases hcond : shaHex ≠ "" ∧ hash c ≠ shaHex
          · obtain ⟨t, ht⟩ := ih ((fs.write tmp c).del tmp)
              (some (.shaMismatch shaHex (hash c))) (tr0 ++ [u])
            refine ⟨u :: t, ?_⟩
            simp only [downloadLoop, hnet]
            rw [if_pos hcond, ht]
            simp
          · refine ⟨[u], ?_⟩
            simp only [downloadLoop, hnet]
            rw [if_neg hcond]
            rfl

/-- The first URL of a non-empty list is always the first one attempted. -/
theorem downloadLoop_trace_first (hash : Bytes → String) (net : String → Option Bytes)
    (shaHex : String) (tmp cached : FPath) (u : String) (rest : List String)
    (fs : FS) (err0 : Option FetchErr) :
    ∃ t, (downloadLoop hash net shaHex tmp cached (u :: rest) fs err0 []).trace = u :: t := by
  cases hnet : net u with
  | none =>
      obtain ⟨t, ht⟩ := downloadLoop_trace_ext hash net shaHex tmp cached rest
        (fs.del tmp) (some (.downloadFailed u)) [u]
      refine ⟨t, ?_⟩
      simp only [downloadLoop, hnet, List.nil_append]
      rw [ht]
      simp
  | some c =>
      by_cases hcond : shaHex ≠ "" ∧ hash c ≠ shaHex
      · obtain ⟨t, ht⟩ := downloadLoop_trace_ext hash net shaHex tmp cached rest
          ((fs.write tmp c).del tmp) (some (.shaMismatch shaHex (hash c))) [u]
        refine ⟨t, ?_⟩
        simp only [downloadLoop, hnet, List.nil_append]
        rw [if_pos hcond, ht]
        simp
      · refine ⟨[], ?_⟩
        simp only [downloadLoop, hnet]
        rw [if_neg hcond]
        simp [LoopOut.trace]

/-- If a declared digest holds of whatever is at the cache path when the loop
starts, it holds of whatever is there when the loop ends: failed attempts only
touch the temporary file, and an install stores verified bytes. -/
theorem downloadLoop_cached_digest (hash : Bytes → String) (net : String → Option Bytes)
    (shaHex : String) (tmp cached : FPath) (hne : cached ≠ tmp) (hsha : shaHex ≠ "") :
    ∀ (urls : List String) (fs : FS) (err0 : Option FetchErr) (tr0 : List String),
      (∀ c0, fs.files cached = some c0 → hash c0 = shaHex) →
      ∀ c1, (downloadLoop hash net shaHex tmp cached urls fs err0 tr0).fsOut.files cached = some c1 →
        hash c1 = shaHex := by
  intro urls
  induction urls with
  | nil =>
      intro fs err0 tr0 hinv c1 hc1
      simp only [downloadLoop, LoopOut.fsOut] at hc1
      exact hinv c1 hc1
  | cons u rest ih =>
      intro fs err0 tr0 hinv c1 hc1
      cases hnet : net u with
      | none =>
          simp only [downloadLoop, hnet] at hc1
          refine ih (fs.del tmp) _ _ ?_ c1 hc1
          intro c0 hc0
          rw [FS.del_files_other fs tmp cached hne] at hc0
          exact hinv c0 hc0
      | some c =>
          by_cases hcond : shaHex ≠ "" ∧ hash c ≠ shaHex
          · simp only [downloadLoop, hnet] at hc1
            rw [if_pos hcond] at hc1
            refine ih ((fs.write tmp c).del tmp) _ _ ?_ c1 hc1
            intro c0 hc0
            rw [FS.del_files_other _ tmp cached hne,
              FS.write_files_other fs tmp cached c hne] at hc0
            exact hinv c0 hc0
          · simp only [downloadLoop, hnet] at hc1
            rw [if_neg hcond] at hc1
            simp only [LoopOut.fsOut, FS.rename, FS.write_files_self,
              FS.write, FS.del, if_pos] at hc1
            have hc : hash c = shaHex := by
              by_contra hnec
              exact hcond ⟨hsha, hnec⟩
            cases hc1
            exact hc

/-- An install only ever stores bytes whose digest matches the declared one
(when a digest is declared), and the stored file immediately passes the
cache-hit check of lines 104-106. -/
theorem downloadLoop_installed_digest (hash : Bytes → String) (net : String → Option Bytes)
    (shaHex : String) (tmp cached : FPath) (hsha : shaHex ≠ "") :
    ∀ (urls : List String) (fs : FS) (err0 : Option FetchErr) (tr0 : List String)
      (fs2 : FS) (tr2 : List String),
      downloadLoop hash net shaHex tmp cached urls fs err0 tr0 = .installed fs2 tr2 →
      ∃ c, fs2.files cached = some c ∧ hash c = shaHex ∧
        cacheHitOK hash shaHex fs2 cached = true := by
  intro urls
  induction urls with
  | nil =>
      intro fs err0 tr0 fs2 tr2 h
      simp [downloadLoop] at h
  | cons u rest ih =>
      intro fs err0 tr0 fs2 tr2 h
      cases hnet : net u with
      | none =>
          simp only [downloadLoop, hnet] at h
          exact ih _ _ _ _ _ h
      | some c =>
          by_cases hcond : shaHex ≠ "" ∧ hash c ≠ shaHex
          · simp only [downloadLoop, hnet] at h
            rw [if_pos hcond] at h
            exact ih _ _ _ _ _ h
          · simp only [downloadLoop, hnet] at h
            rw [if_neg hcond] at h
            have hc : hash c = shaHex := by
              by_contra hnec
              exact hcond ⟨hsha, hnec⟩
            have hfs2 : fs2 = (fs.write tmp c).rename tmp cached := by
              cases h
              rfl
            refine ⟨c, ?_, hc, ?_⟩
            · rw [hfs2]
              simp [FS.rename, FS.write, FS.del]
            · rw [hfs2]
              simp [cacheHitOK, FS.rename, FS.write, FS.del, hc]

/-- The resolved cache path is never the temporary download path: the cache
path has at least four components, the temporary path exactly two. -/
theorem cachedPath_ne_tmp (args : Args) (w : World) (fam cv filename s : String) :
    cachedPathOf args w fam cv filename ≠ tmpDir ++ [s] := by
  intro h
  have hl := congrArg List.length h
  simp only [cachedPathOf, tmpDir, List.length_append] at hl
  cases hc : args.cache_root with
  | some r => simp [cacheRootOf, hc] at hl
  | none =>
      cases hx : w.xdg with
      | some x => simp [cacheRootOf, hc, defaultCacheRoot, xdgCacheDir, hx] at hl
      | none => simp [cacheRootOf, hc, defaultCacheRoot, xdgCacheDir, hx] at hl

/-- Unfolding of `runFetch` once the manifest is present, the tier resolves,
the filename is usable, and the manifest declares family and version. -/
theorem runFetch_resolved (hash : Bytes → String) (args : Args) (w : World)
    (m : Manifest) (e : TierEntry) (fam cv : String)
    (h1 : w.manifest = some m)
    (h2 : findTier m.tiers args.tier = some e)
    (h4 : pyTruthy (artOf e).filename = true)
    (h5 : m.family = some fam) (h6 : m.content_version = some cv) :
    runFetch hash args w =
      (let shaHex := normHex (artOf e).sha256_hex
       let urls := (artOf e).urls.getD []
       let filename := (artOf e).filename.getD ""
       let fs1 := w.fs.mkdirAll (cacheRootOf args w ++ [fam, cv])
       let cachedPath := cachedPathOf args w fam cv filename
       match fs1.files cachedPath with
       | some c =>
           if shaHex ≠ "" then
             if hash c = shaHex then
               { outcome := .exited 0, fs := fs1, stdout := [pathStr cachedPath],
                 stderrLines := [], downloads := [] }
             else
               fetchPhase hash w.net args shaHex filename cachedPath urls
                 (fs1.del cachedPath)
           else fetchPhase hash w.net args shaHex filename cachedPath urls fs1
       | none => fetchPhase hash w.net args shaHex filename cachedPath urls fs1) := by
  simp only [runFetch, h1, h2, h4, h5, h6, if_true]

/-- Under the resolved context, when the download loop would exhaust every
mirror, the run reports failure softly: code 2 with `--require`, code 0
without, having attempted every URL. -/
theorem fetchPhase_all_fail (hash : Bytes → String) (net : String → Option Bytes)
    (args : Args) (shaHex filename : String) (cachedPath : FPath)
    (urls : List String) (fs : FS)
    (hne : urls ≠ [])
    (hbad : ∀ u ∈ urls, badAttempt hash net shaHex u = true) :
    (fetchPhase hash net args shaHex filename cachedPath urls fs).outcome =
        .exited (if args.require then 2 else 0) ∧
    (fetchPhase hash net args shaHex filename cachedPath urls fs).downloads = urls := by
  obtain ⟨fs2, heq, _, _⟩ := downloadLoop_all_fail hash net shaHex
    (tmpDir ++ [filename ++ ".tmp"]) cachedPath urls fs none [] hne hbad
  simp only [fetchPhase, if_neg hne, heq]
  cases hreq : args.require <;> simp [softMiss, hreq]

/-- When there are URLs to try, the reported downloads of the run are exactly
the URLs the loop attempted. -/
theorem fetchPhase_downloads (hash : Bytes → String) (net : String → Option Bytes)
    (args : Args) (shaHex filename : String) (cachedPath : FPath)
    (urls : List String) (fs : FS) (hne : urls ≠ []) :
    (fetchPhase hash net args shaHex filename cachedPath urls fs).downloads =
      (downloadLoop hash net shaHex (tmpDir ++ [filename ++ ".tmp"]) cachedPath
        urls fs none []).trace := by
  simp only [fetchPhase, if_neg hne]
  cases hloop : downloadLoop hash net shaHex (tmpDir ++ [filename ++ ".tmp"])
      cachedPath urls fs none [] with
  | exhausted fs2 lastErr trace =>
      cases hreq : args.require <;> simp [softMiss, hreq, LoopOut.trace]
  | installed fs2 trace =>
      cases hout : args.output with
      | none => simp [LoopOut.trace]
      | some out =>
          cases hcont : fs2.files cachedPath <;> simp [hcont, LoopOut.trace]

/-- The digest invariant survives the whole fetch phase: if everything at the
cache path verified before, everything there at the end verifies too. -/
theorem fetchPhase_cached_digest (hash : Bytes → String) (net : String → Option Bytes)
    (args : Args) (shaHex filename : String) (cachedPath : FPath)
    (urls : List String) (fs : FS)
    (hsha : shaHex ≠ "")
    (hne : cachedPath ≠ tmpDir ++ [filename ++ ".tmp"])
    (hinv : ∀ c0, fs.files cachedPath = some c0 → hash c0 = shaHex) :
    ∀ c1, (fetchPhase hash net args shaHex filename cachedPath urls fs).fs.files
        cachedPath = some c1 → hash c1 = shaHex := by
  intro c1 hc1
  by_cases hurls : urls = []
  · rw [fetchPhase, if_pos hurls] at hc1
    cases hreq : args.require <;> simp [softMiss, hreq] at hc1 <;> exact hinv c1 hc1
  · rw [fetchPhase, if_neg hurls] at hc1
    have hloopinv := downloadLoop_cached_digest hash net shaHex
      (tmpDir ++ [filename ++ ".tmp"]) cachedPath hne hsha urls fs none [] hinv
    cases hloop : downloadLoop hash net shaHex (tmpDir ++ [filename ++ ".tmp"])
        cachedPath urls fs none [] with
    | exhausted fs2 lastErr trace =>
        have hfs2 : ∀ c0, fs2.files cachedPath = some c0 → hash c0 = shaHex := by
          intro c0 hc0
          apply hloopinv c0
          rw [hloop]
          exact hc0
        simp only [hloop] at hc1
        cases hreq : args.require <;> simp [softMiss, hreq] at hc1 <;> exact hfs2 c1 hc1
    | installed fs2 trace =>
        have hfs2 : ∀ c0, fs2.files cachedPath = some c0 → hash c0 = shaHex := by
          intro c0 hc0
          apply hloopinv c0
          rw [hloop]
          exact hc0
        simp only [hloop] at hc1
        cases hout : args.output with
        | none =>
            simp only [hout] at hc1
            exact hfs2 c1 hc1
        | some out =>
            simp only [hout] at hc1
            cases hcont : fs2.files cachedPath with
            | none =>
                simp only [hcont] at hc1
                simp at hc1
            | some content =>
                simp only [hcont] at hc1
                by_cases hoc : cachedPath = out
                · rw [hoc, FS.write_files_self] at hc1
                  obtain rfl : content = c1 := by injection hc1
                  exact hfs2 _ hcont
                · rw [FS.write_files_other _ out _ content hoc, FS.mkdirAll_files] at hc1
                  exact hfs2 c1 hc1

/-- The cache-hit fast path of lines 104-108, in full. -/
theorem run_cache_hit (hash : Bytes → String) (args : Args) (w : World)
    (m : Manifest) (e : TierEntry) (fam cv : String) (c : Bytes)
    (h1 : w.manifest = some m) (h2 : findTier m.tiers args.tier = some e)
    (h4 : pyTruthy (artOf e).filename = true)
    (h5 : m.family = some fam) (h6 : m.content_version = some cv)
    (hsha : normHex (artOf e).sha256_hex ≠ "")
    (hfile : w.fs.files (cachedPathOf args w fam cv ((artOf e).filename.getD ""))
      = some c)
    (hmatch : hash c = normHex (artOf e).sha256_hex) :
    runFetch hash args w =
      { outcome := .exited 0,
        fs := w.fs.mkdirAll (cacheRootOf args w ++ [fam, cv]),
        stdout := [pathStr (cachedPathOf args w fam cv ((artOf e).filename.getD ""))],
        stderrLines := [], downloads := [] } := by
  rw [runFetch_resolved hash args w m e fam cv h1 h2 h4 h5 h6]
  simp only [FS.mkdirAll_files, hfile]
  rw [if_pos hsha, if_pos hmatch]

/-! ## Claims -/

/-- C1 counterexample: a run attempting both mirrors, both failing, with
`--require` unset, terminates with signal 0 — not 2 as the claim states. -/
theorem mirrors_exhausted_exit_zero_cex :
    (runFetch demoHash (demoArgs false none)
        (demoWorld (demoManifest (some "ABC123") ["u1", "u2"]) emptyFS demoNetBad)).downloads
      = ["u1", "u2"] ∧
    (runFetch demoHash (demoArgs false none)
        (demoWorld (demoManifest (some "ABC123") ["u1", "u2"]) emptyFS demoNetBad)).outcome
      = .exited 0 :=
  ⟨by decide, by decide⟩

/-- C1 (amended): when a download is attempted and every mirror URL fails —
including failure by digest mismatch — the run terminates with signal 2 when
`--require` is set and with signal 0 when it is not, after attempting every
URL in order. -/
theorem mirrors_exhausted_exit (hash : Bytes → String) (args : Args) (w : World)
    (m : Manifest) (e : TierEntry) (fam cv : String)
    (h1 : w.manifest = some m) (h2 : findTier m.tiers args.tier = some e)
    (h4 : pyTruthy (artOf e).filename = true)
    (h5 : m.family = some fam) (h6 : m.content_version = some cv)
    (hurls : (artOf e).urls.getD [] ≠ [])
    (hbad : ∀ u ∈ (artOf e).urls.getD [],
      badAttempt hash w.net (normHex (artOf e).sha256_hex) u = true)
    (hnohit : cacheHitOK hash (normHex (artOf e).sha256_hex) w.fs
      (cachedPathOf args w fam cv ((artOf e).filename.getD "")) = false) :
    (runFetch hash args w).outcome = .exited (if args.require then 2 else 0) ∧
    (runFetch hash args w).downloads = (artOf e).urls.getD [] := by
  rw [runFetch_resolved hash args w m e fam cv h1 h2 h4 h5 h6]
  cases hcp : w.fs.files (cachedPathOf args w fam cv ((artOf e).filename.getD "")) with
  | none =>
      simp only [FS.mkdirAll_files, hcp]
      exact fetchPhase_all_fail hash w.net args _ _ _ _ _ hurls hbad
  | some c =>
      by_cases hsha : normHex (artOf e).sha256_hex ≠ ""
      · have hcmiss : ¬(hash c = normHex (artOf e).sha256_hex) := by
          rw [cacheHitOK, hcp] at hnohit
          simpa using hnohit
        simp only [FS.mkdirAll_files, hcp]
        rw [if_pos hsha, if_neg hcmiss]
        exact fetchPhase_all_fail hash w.net args _ _ _ _ _ hurls hbad
      · simp only [FS.mkdirAll_files, hcp]
        rw [if_neg hsha]
        exact fetchPhase_all_fail hash w.net args _ _ _ _ _ hurls hbad

/-- Witness for `mirrors_exhausted_exit`: with `--require` set and both
mirrors failing, the run exits 2 after attempting `u1` then `u2`. -/
theorem mirrors_exhausted_exit_witness :
    (runFetch demoHash (demoArgs true none)
        (demoWorld (demoManifest (some "ABC123") ["u1", "u2"]) emptyFS demoNetBad)).outcome
      = .exited (if (demoArgs true none).require then 2 else 0) ∧
    (runFetch demoHash (demoArgs true none)
        (demoWorld (demoManifest (some "ABC123") ["u1", "u2"]) emptyFS demoNetBad)).downloads
      = ["u1", "u2"] :=
  mirrors_exhausted_exit demoHash (demoArgs true none)
    (demoWorld (demoManifest (some "ABC123") ["u1", "u2"]) emptyFS demoNetBad)
    (demoManifest (some "ABC123") ["u1", "u2"]) (demoEntry (some "ABC123") ["u1", "u2"])
    "fam" "v1" rfl rfl (by decide) rfl rfl (by decide) (by decide) (by decide)

/-- C2: with a declared digest, the download loop installs a file at the cache
path only by renaming a temporary file whose computed digest equals the
declared digest; the installed file passes the subsequent cache-hit check. -/
theorem install_only_verified (hash : Bytes → String) (net : String → Option Bytes)
    (shaHex : String) (tmp cached : FPath) (hsha : shaHex ≠ "")
    (urls : List String) (fs fs2 : FS) (tr2 : List String)
    (h : downloadLoop hash net shaHex tmp cached urls fs none [] = .installed fs2 tr2) :
    ∃ c, fs2.files cached = some c ∧ hash c = shaHex ∧
      cacheHitOK hash shaHex fs2 cached = true :=
  downloadLoop_installed_digest hash net shaHex tmp cached hsha urls fs none [] fs2 tr2 h

/-- Witness for `install_only_verified`: a concrete verified install. -/
theorem install_only_verified_witness :
    ∃ c, demoInstalledFS.files demoCached = some c ∧ demoHash c = "abc123" ∧
      cacheHitOK demoHash "abc123" demoInstalledFS demoCached = true :=
  install_only_verified demoHash demoNetGood "abc123" demoTmp demoCached (by decide)
    ["u1"] emptyFS demoInstalledFS ["u1"] rfl

/-- C3: when the cache file exists, a digest is declared, and the computed
digest of the file equals the declared digest after the case-insensitive
normalization of line 88, the run prints the cache path, exits 0, and attempts
no download. -/
theorem cache_hit_fast_path (hash : Bytes → String) (args : Args) (w : World)
    (m : Manifest) (e : TierEntry) (fam cv : String) (c : Bytes)
    (h1 : w.manifest = some m) (h2 : findTier m.tiers args.tier = some e)
    (h4 : pyTruthy (artOf e).filename = true)
    (h5 : m.family = some fam) (h6 : m.content_version = some cv)
    (hsha : normHex (artOf e).sha256_hex ≠ "")
    (hfile : w.fs.files (cachedPathOf args w fam cv ((artOf e).filename.getD ""))
      = some c)
    (hmatch : hash c = normHex (artOf e).sha256_hex) :
    (runFetch hash args w).outcome = .exited 0 ∧
    (runFetch hash args w).stdout =
      [pathStr (cachedPathOf args w fam cv ((artOf e).filename.getD ""))] ∧
    (runFetch hash args w).downloads = [] := by
  rw [run_cache_hit hash args w m e fam cv c h1 h2 h4 h5 h6 hsha hfile hmatch]
  exact ⟨rfl, rfl, rfl⟩

/-- Witness for `cache_hit_fast_path`: an uppercase declared digest `ABC123`
matches the cached bytes hashing to `abc123`; the run exits 0 with the cache
path and no downloads. -/
theorem cache_hit_fast_path_witness :
    (runFetch demoHash (demoArgs false none)
        (demoWorld (demoManifest (some "ABC123") ["u1"])
          (fsWith demoCached [1, 2, 3]) demoNetGood)).outcome = .exited 0 ∧
    (runFetch demoHash (demoArgs false none)
        (demoWorld (demoManifest (some "ABC123") ["u1"])
          (fsWith demoCached [1, 2, 3]) demoNetGood)).stdout = [pathStr demoCached] ∧
    (runFetch demoHash (demoArgs false none)
        (demoWorld (demoManifest (some "ABC123") ["u1"])
          (fsWith demoCached [1, 2, 3]) demoNetGood)).downloads = [] :=
  cache_hit_fast_path demoHash (demoArgs false none)
    (demoWorld (demoManifest (some "ABC123") ["u1"]) (fsWith demoCached [1, 2, 3])
      demoNetGood)
    (demoManifest (some "ABC123") ["u1"]) (demoEntry (some "ABC123") ["u1"])
    "fam" "v1" [1, 2, 3] rfl rfl (by decide) rfl rfl (by decide) (by decide) (by decide)

/-- C4: an existing cache file whose digest disagrees with the declared one
is deleted before the download phase runs (the phase starts on a filesystem
with the cache path removed), and the run never ends with mismatching bytes
at the cache path. -/
theorem stale_cache_invalidated (hash : Bytes → String) (args : Args) (w : World)
    (m : Manifest) (e : TierEntry) (fam cv : String) (c : Bytes)
    (h1 : w.manifest = some m) (h2 : findTier m.tiers args.tier = some e)
    (h4 : pyTruthy (artOf e).filename = true)
    (h5 : m.family = some fam) (h6 : m.content_version = some cv)
    (hsha : normHex (artOf e).sha256_hex ≠ "")
    (hfile : w.fs.files (cachedPathOf args w fam cv ((artOf e).filename.getD ""))
      = some c)
    (hmiss : hash c ≠ normHex (artOf e).sha256_hex) :
    runFetch hash args w =
      fetchPhase hash w.net args (normHex (artOf e).sha256_hex)
        ((artOf e).filename.getD "")
        (cachedPathOf args w fam cv ((artOf e).filename.getD ""))
        ((artOf e).urls.getD [])
        ((w.fs.mkdirAll (cacheRootOf args w ++ [fam, cv])).del
          (cachedPathOf args w fam cv ((artOf e).filename.getD ""))) ∧
    ∀ c1, (runFetch hash args w).fs.files
        (cachedPathOf args w fam cv ((artOf e).filename.getD "")) = some c1 →
      hash c1 = normHex (artOf e).sha256_hex := by
  have hmain : runFetch hash args w =
      fetchPhase hash w.net args (normHex (artOf e).sha256_hex)
        ((artOf e).filename.getD "")
        (cachedPathOf args w fam cv ((artOf e).filename.getD ""))
        ((artOf e).urls.getD [])
        ((w.fs.mkdirAll (cacheRootOf args w ++ [fam, cv])).del
          (cachedPathOf args w fam cv ((artOf e).filename.getD ""))) := by
    rw [runFetch_resolved hash args w m e fam cv h1 h2 h4 h5 h6]
    simp only [FS.mkdirAll_files, hfile]
    rw [if_pos hsha, if_neg hmiss]
  refine ⟨hmain, ?_⟩
  rw [hmain]
  refine fetchPhase_cached_digest hash w.net args _ _ _ _ _ hsha
    (cachedPath_ne_tmp args w fam cv ((artOf e).filename.getD "")
      ((artOf e).filename.getD "" ++ ".tmp")) ?_
  intro c0 hc0
  rw [FS.del_files_self] at hc0
  exact Option.noConfusion hc0

/-- Witness for `stale_cache_invalidated`: the cached bytes `[7]` hash to
`def777`, not the declared `abc123`, so the fetch phase starts with the cache
entry deleted, and no mismatching bytes survive at the cache path. -/
theorem stale_cache_invalidated_witness :
    (runFetch demoHash (demoArgs false none)
        (demoWorld (demoManifest (some "ABC123") ["u1"]) (fsWith demoCached [7])
          demoNetGood) =
      fetchPhase demoHash demoNetGood (demoArgs false none) "abc123" "f.bin"
        demoCached ["u1"]
        (((fsWith demoCached [7]).mkdirAll ["root", "fam", "v1"]).del demoCached)) ∧
    ∀ c1, (runFetch demoHash (demoArgs false none)
        (demoWorld (demoManifest (some "ABC123") ["u1"]) (fsWith demoCached [7])
          demoNetGood)).fs.files demoCached = some c1 →
      demoHash c1 = "abc123" :=
  stale_cache_invalidated demoHash (demoArgs false none)
    (demoWorld (demoManifest (some "ABC123") ["u1"]) (fsWith demoCached [7])
      demoNetGood)
    (demoManifest (some "ABC123") ["u1"]) (demoEntry (some "ABC123") ["u1"])
    "fam" "v1" [7] rfl rfl (by decide) rfl rfl (by decide) (by decide) (by decide)

/-- C5: the download step attempts URLs strictly in order, stops at the first
attempt that succeeds (and verifies, when a digest is declared), leaves no
temporary file behind after failures, and reports overall failure only after
every URL has failed, surfacing the most recent error. -/
theorem mirror_order_and_fallback (hash : Bytes → String) (net : String → Option Bytes)
    (shaHex : String) (tmp cached : FPath) :
    (∀ (urls : List String) (fs : FS), urls ≠ [] →
      (∀ u ∈ urls, badAttempt hash net shaHex u = true) →
      ∃ fs2, downloadLoop hash net shaHex tmp cached urls fs none [] =
          .exhausted fs2 ((urls.getLast?).map (attemptErr hash net shaHex)) urls ∧
        fs2.files tmp = none ∧ ∀ p, p ≠ tmp → fs2.files p = fs.files p) ∧
    (∀ (bad : List String) (u : String) (rest : List String) (fs : FS),
      (∀ v ∈ bad, badAttempt hash net shaHex v = true) →
      badAttempt hash net shaHex u = false →
      ∃ c fs2, net u = some c ∧
        downloadLoop hash net shaHex tmp cached (bad ++ u :: rest) fs none [] =
          .installed fs2 (bad ++ [u]) ∧
        fs2.files cached = some c ∧
        (shaHex ≠ "" → hash c = shaHex) ∧
        (∀ p, p ≠ tmp → p ≠ cached → fs2.files p = fs.files p)) := by
  constructor
  · intro urls fs hne hbad
    obtain ⟨fs2, heq, hp1, hp2⟩ :=
      downloadLoop_all_fail hash net shaHex tmp cached urls fs none [] hne hbad
    exact ⟨fs2, heq, hp1, hp2⟩
  · intro bad u rest fs hbad hok
    obtain ⟨c, fs2, hc, heq, hcache, hver, hframe⟩ :=
      downloadLoop_first_success hash net shaHex tmp cached bad u rest fs none []
        hbad hok
    exact ⟨c, fs2, hc, heq, hcache, hver, hframe⟩

/-- Witness for `mirror_order_and_fallback`: both halves at concrete inputs —
two dead mirrors exhaust in order surfacing the error of the last URL, and a dead mirror
followed by a live one installs after attempting exactly `u9` then `u1`. -/
theorem mirror_order_and_fallback_witness :
    (∃ fs2, downloadLoop demoHash demoNetBad "abc123" demoTmp demoCached
          ["u1", "u2"] emptyFS none [] =
        .exhausted fs2 (some (.downloadFailed "u2")) ["u1", "u2"] ∧
      fs2.files demoTmp = none ∧ ∀ p, p ≠ demoTmp → fs2.files p = emptyFS.files p) ∧
    (∃ c fs2, demoNetGood "u1" = some c ∧
        downloadLoop demoHash demoNetGood "abc123" demoTmp demoCached
          ["u9", "u1", "u2"] emptyFS none [] =
        .installed fs2 ["u9", "u1"] ∧
      fs2.files demoCached = some c ∧
      ("abc123" ≠ "" → demoHash c = "abc123") ∧
      (∀ p, p ≠ demoTmp → p ≠ demoCached → fs2.files p = emptyFS.files p)) :=
  ⟨(mirror_order_and_fallback demoHash demoNetBad "abc123" demoTmp demoCached).1
      ["u1", "u2"] emptyFS (by decide) (by decide),
   (mirror_order_and_fallback demoHash demoNetGood "abc123" demoTmp demoCached).2
      ["u9"] "u1" ["u2"] emptyFS (by decide) (by decide)⟩

/-- C6 counterexample: the tier entry declares zero mirror URLs and
`--require` is set, but a valid cached copy exists: the run exits 0 through
the cache-hit fast path instead of the claimed signal 2. -/
theorem zero_urls_require_cache_hit_cex :
    (runFetch demoHash (demoArgs true none)
        (demoWorld (demoManifest (some "ABC123") []) (fsWith demoCached [1, 2, 3])
          demoNetBad)).outcome = .exited 0 ∧
    (demoManifest (some "ABC123") []).tiers =
      [demoEntry (some "ABC123") []] :=
  ⟨by decide, by decide⟩

/-- C6 (amended): each soft-missing condition — tier absent from the manifest,
entry lacking an artifact filename, entry declaring zero mirror URLs provided
no valid cached copy exists (otherwise the cache hit answers with signal 0
regardless of strict mode) — terminates with signal 0 without `--require` and
signal 2 with it, downloading nothing and creating no file. -/
theorem soft_missing_escalation (hash : Bytes → String) (args : Args) (w : World)
    (m : Manifest) (h1 : w.manifest = some m) :
    (findTier m.tiers args.tier = none →
      (runFetch hash args w).outcome = .exited (if args.require then 2 else 0) ∧
      (runFetch hash args w).downloads = [] ∧
      ∀ p, (runFetch hash args w).fs.files p = w.fs.files p) ∧
    (∀ e, findTier m.tiers args.tier = some e →
      pyTruthy (artOf e).filename = false →
      (runFetch hash args w).outcome = .exited (if args.require then 2 else 0) ∧
      (runFetch hash args w).downloads = [] ∧
      ∀ p, (runFetch hash args w).fs.files p = w.fs.files p) ∧
    (∀ e fam cv, findTier m.tiers args.tier = some e →
      pyTruthy (artOf e).filename = true →
      m.family = some fam → m.content_version = some cv →
      (artOf e).urls.getD [] = [] →
      cacheHitOK hash (normHex (artOf e).sha256_hex) w.fs
        (cachedPathOf args w fam cv ((artOf e).filename.getD "")) = false →
      (runFetch hash args w).outcome = .exited (if args.require then 2 else 0) ∧
      (runFetch hash args w).downloads = [] ∧
      ∀ p, (runFetch hash args w).fs.files p = w.fs.files p ∨
        (runFetch hash args w).fs.files p = none) := by
  refine ⟨?_, ?_, ?_⟩
  · intro hfind
    simp only [runFetch, h1, hfind]
    cases hreq : args.require <;> simp [softMiss, hreq]
  · intro e hfind hfname
    simp only [runFetch, h1, hfind, hfname]
    cases hreq : args.require <;> simp [softMiss, hreq]
  · intro e fam cv hfind hfname h5 h6 hurls hnohit
    rw [runFetch_resolved hash args w m e fam cv h1 hfind hfname h5 h6]
    cases hcp : w.fs.files (cachedPathOf args w fam cv ((artOf e).filename.getD "")) with
    | none =>
        simp only [FS.mkdirAll_files, hcp, hurls]
        cases hreq : args.require <;>
          simp [fetchPhase, softMiss, hreq, FS.mkdirAll_files]
    | some c =>
        by_cases hsha : normHex (artOf e).sha256_hex ≠ ""
        · have hcmiss : ¬(hash c = normHex (artOf e).sha256_hex) := by
            rw [cacheHitOK, hcp] at hnohit
            simpa using hnohit
          simp only [FS.mkdirAll_files, hcp, hurls]
          rw [if_pos hsha, if_neg hcmiss]
          refine ⟨?_, ?_, ?_⟩
          · rw [fetchPhase, if_pos rfl]
            cases hreq : args.require <;> simp [softMiss, hreq]
          · rw [fetchPhase, if_pos rfl]
            cases hreq : args.require <;> simp [softMiss, hreq]
          · intro p
            rw [fetchPhase, if_pos rfl]
            by_cases hp : p = cachedPathOf args w fam cv ((artOf e).filename.getD "")
            · right
              cases hreq : args.require <;> simp [softMiss, hreq, hp]
            · left
              cases hreq : args.require <;>
                simp [softMiss, hreq, FS.del_files_other _ _ _ hp]
        · simp only [FS.mkdirAll_files, hcp, hurls]
          rw [if_neg hsha]
          refine ⟨?_, ?_, ?_⟩
          · rw [fetchPhase, if_pos rfl]
            cases hreq : args.require <;> simp [softMiss, hreq]
          · rw [fetchPhase, if_pos rfl]
            cases hreq : args.require <;> simp [softMiss, hreq]
          · intro p
            left
            rw [fetchPhase, if_pos rfl]
            cases hreq : args.require <;> simp [softMiss, hreq]

/-- Witness for `soft_missing_escalation`: all three soft-missing conditions
at concrete strict-mode worlds, each exiting 2 with no downloads. -/
theorem soft_missing_escalation_witness :
    ((runFetch demoHash (demoArgs true none)
        (demoWorld emptyTiersManifest emptyFS demoNetBad)).outcome = .exited 2 ∧
      (runFetch demoHash (demoArgs true none)
        (demoWorld emptyTiersManifest emptyFS demoNetBad)).downloads = [] ∧
      ∀ p, (runFetch demoHash (demoArgs true none)
        (demoWorld emptyTiersManifest emptyFS demoNetBad)).fs.files p =
          (demoWorld emptyTiersManifest emptyFS demoNetBad).fs.files p) ∧
    ((runFetch demoHash (demoArgs true none)
        (demoWorld noFileManifest emptyFS demoNetBad)).outcome = .exited 2 ∧
      (runFetch demoHash (demoArgs true none)
        (demoWorld noFileManifest emptyFS demoNetBad)).downloads = [] ∧
      ∀ p, (runFetch demoHash (demoArgs true none)
        (demoWorld noFileManifest emptyFS demoNetBad)).fs.files p =
          (demoWorld noFileManifest emptyFS demoNetBad).fs.files p) ∧
    ((runFetch demoHash (demoArgs true none)
        (demoWorld (demoManifest (some "ABC123") []) emptyFS demoNetBad)).outcome
        = .exited 2 ∧
      (runFetch demoHash (demoArgs true none)
        (demoWorld (demoManifest (some "ABC123") []) emptyFS demoNetBad)).downloads
        = [] ∧
      ∀ p, (runFetch demoHash (demoArgs true none)
          (demoWorld (demoManifest (some "ABC123") []) emptyFS demoNetBad)).fs.files p =
          (demoWorld (demoManifest (some "ABC123") []) emptyFS demoNetBad).fs.files p ∨
        (runFetch demoHash (demoArgs true none)
          (demoWorld (demoManifest (some "ABC123") []) emptyFS demoNetBad)).fs.files p =
          none) :=
  ⟨(soft_missing_escalation demoHash (demoArgs true none)
      (demoWorld emptyTiersManifest emptyFS demoNetBad) emptyTiersManifest rfl).1 rfl,
   (soft_missing_escalation demoHash (demoArgs true none)
      (demoWorld noFileManifest emptyFS demoNetBad) noFileManifest rfl).2.1
      { tier := some "tiny",
        artifact := some { filename := none, sha256_hex := none, urls := none } }
      rfl rfl,
   (soft_missing_escalation demoHash (demoArgs true none)
      (demoWorld (demoManifest (some "ABC123") []) emptyFS demoNetBad)
      (demoManifest (some "ABC123") []) rfl).2.2
      (demoEntry (some "ABC123") []) "fam" "v1" rfl (by decide) rfl rfl rfl
      (by decide)⟩

/-- C7 counterexample: with no declared digest, even though the first run
succeeded (exit 0) and the manifest is unchanged, the second run attempts the
mirror again instead of taking the cache-hit fast path. -/
theorem second_fetch_redownloads_cex :
    (runFetch demoHash (demoArgs false none)
        { demoWorld (demoManifest none ["u1"]) emptyFS demoNetGood with
          fs := (runFetch demoHash (demoArgs false none)
            (demoWorld (demoManifest none ["u1"]) emptyFS demoNetGood)).fs }).downloads
      = ["u1"] ∧
    (runFetch demoHash (demoArgs false none)
        (demoWorld (demoManifest none ["u1"]) emptyFS demoNetGood)).outcome
      = .exited 0 :=
  ⟨by decide, by decide⟩

/-- C7 (amended): when the tier entry declares a digest and the first run
leaves the cache path holding bytes matching it (as every successful run
does), a second run over the resulting filesystem resolves the same cache
path, prints it, exits 0, and performs no download. -/
theorem second_fetch_cache_hit (hash : Bytes → String) (args : Args) (w : World)
    (m : Manifest) (e : TierEntry) (fam cv : String) (c : Bytes)
    (h1 : w.manifest = some m) (h2 : findTier m.tiers args.tier = some e)
    (h4 : pyTruthy (artOf e).filename = true)
    (h5 : m.family = some fam) (h6 : m.content_version = some cv)
    (hsha : normHex (artOf e).sha256_hex ≠ "")
    (hinst : (runFetch hash args w).fs.files
        (cachedPathOf args w fam cv ((artOf e).filename.getD "")) = some c)
    (hmatch : hash c = normHex (artOf e).sha256_hex) :
    (runFetch hash args { w with fs := (runFetch hash args w).fs }).outcome
      = .exited 0 ∧
    (runFetch hash args { w with fs := (runFetch hash args w).fs }).stdout =
      [pathStr (cachedPathOf args w fam cv ((artOf e).filename.getD ""))] ∧
    (runFetch hash args { w with fs := (runFetch hash args w).fs }).downloads
      = [] := by
  have h := run_cache_hit hash args { w with fs := (runFetch hash args w).fs }
    m e fam cv c h1 h2 h4 h5 h6 hsha hinst hmatch
  rw [h]
  exact ⟨rfl, rfl, rfl⟩

/-- Witness for `second_fetch_cache_hit`: the first run downloads and
installs; the second run prints the same cache path with no downloads. -/
theorem second_fetch_cache_hit_witness :
    (runFetch demoHash (demoArgs false none)
        { demoWorld (demoManifest (some "ABC123") ["u1"]) emptyFS demoNetGood with
          fs := (runFetch demoHash (demoArgs false none)
            (demoWorld (demoManifest (some "ABC123") ["u1"]) emptyFS demoNetGood)).fs }).outcome
      = .exited 0 ∧
    (runFetch demoHash (demoArgs false none)
        { demoWorld (demoManifest (some "ABC123") ["u1"]) emptyFS demoNetGood with
          fs := (runFetch demoHash (demoArgs false none)
            (demoWorld (demoManifest (some "ABC123") ["u1"]) emptyFS demoNetGood)).fs }).stdout
      = [pathStr demoCached] ∧
    (runFetch demoHash (demoArgs false none)
        { demoWorld (demoManifest (some "ABC123") ["u1"]) emptyFS demoNetGood with
          fs := (runFetch demoHash (demoArgs false none)
            (demoWorld (demoManifest (some "ABC123") ["u1"]) emptyFS demoNetGood)).fs }).downloads
      = [] :=
  second_fetch_cache_hit demoHash (demoArgs false none)
    (demoWorld (demoManifest (some "ABC123") ["u1"]) emptyFS demoNetGood)
    (demoManifest (some "ABC123") ["u1"]) (demoEntry (some "ABC123") ["u1"])
    "fam" "v1" [1, 2, 3] rfl rfl (by decide) rfl rfl (by decide) (by decide)
    (by decide)

/-- C8 (failing input): on a cache hit with `--output` set, the run returns at
line 108 before the copy of lines 146-151 ever runs: it prints the cache path
rather than the output path, exits 0, and writes nothing at the output path —
against both the output-copy step of the spec and the help text of the option. -/
theorem output_ignored_on_cache_hit :
    (runFetch demoHash (demoArgs false (some ["out", "o.bin"]))
        (demoWorld (demoManifest (some "ABC123") ["u1"])
          (fsWith demoCached [1, 2, 3]) demoNetGood)).stdout
      = [pathStr demoCached] ∧
    (runFetch demoHash (demoArgs false (some ["out", "o.bin"]))
        (demoWorld (demoManifest (some "ABC123") ["u1"])
          (fsWith demoCached [1, 2, 3]) demoNetGood)).fs.files ["out", "o.bin"]
      = none ∧
    (runFetch demoHash (demoArgs false (some ["out", "o.bin"]))
        (demoWorld (demoManifest (some "ABC123") ["u1"])
          (fsWith demoCached [1, 2, 3]) demoNetGood)).outcome = .exited 0 :=
  ⟨by decide, by decide, by decide⟩

/-- C9: when the digest field is absent, empty, or whitespace-only (so line 88
normalizes it to the empty string), an existing cache file is never reused:
the first declared URL is attempted, and a successful first download replaces
the cache content, which becomes the printed result. -/
theorem no_digest_skips_cache (hash : Bytes → String) (args : Args) (w : World)
    (m : Manifest) (e : TierEntry) (fam cv u : String)
    (rest : List String) (c0 : Bytes)
    (h1 : w.manifest = some m) (h2 : findTier m.tiers args.tier = some e)
    (h4 : pyTruthy (artOf e).filename = true)
    (h5 : m.family = some fam) (h6 : m.content_version = some cv)
    (hsha : normHex (artOf e).sha256_hex = "")
    (hurls : (artOf e).urls.getD [] = u :: rest)
    (hcache : w.fs.files (cachedPathOf args w fam cv ((artOf e).filename.getD ""))
      = some c0)
    (hout : args.output = none) :
    (∃ t, (runFetch hash args w).downloads = u :: t) ∧
    (∀ c, w.net u = some c →
      (runFetch hash args w).fs.files
        (cachedPathOf args w fam cv ((artOf e).filename.getD "")) = some c ∧
      (runFetch hash args w).outcome = .exited 0 ∧
      (runFetch hash args w).stdout =
        [pathStr (cachedPathOf args w fam cv ((artOf e).filename.getD ""))]) := by
  have hshaneg : ¬(normHex (artOf e).sha256_hex ≠ "") := fun h => h hsha
  have hmain : runFetch hash args w =
      fetchPhase hash w.net args (normHex (artOf e).sha256_hex)
        ((artOf e).filename.getD "")
        (cachedPathOf args w fam cv ((artOf e).filename.getD ""))
        ((artOf e).urls.getD [])
        (w.fs.mkdirAll (cacheRootOf args w ++ [fam, cv])) := by
    rw [runFetch_resolved hash args w m e fam cv h1 h2 h4 h5 h6]
    simp only [FS.mkdirAll_files, hcache]
    rw [if_neg hshaneg]
  constructor
  · rw [hmain, hurls,
      fetchPhase_downloads hash w.net args _ _ _ (u :: rest) _ (by simp)]
    exact downloadLoop_trace_first hash w.net _ _ _ u rest _ none
  · intro c hc
    have hok : badAttempt hash w.net (normHex (artOf e).sha256_hex) u = false := by
      simp [badAttempt, hc, hsha]
    obtain ⟨c2, fs2, hc2, heq, hcache2, _, _⟩ :=
      downloadLoop_first_success hash w.net (normHex (artOf e).sha256_hex)
        (tmpDir ++ [((artOf e).filename.getD "") ++ ".tmp"])
        (cachedPathOf args w fam cv ((artOf e).filename.getD ""))
        [] u rest (w.fs.mkdirAll (cacheRootOf args w ++ [fam, cv])) none []
        (fun v hv => absurd hv (List.not_mem_nil v)) hok
    obtain rfl : c2 = c := by
      rw [hc] at hc2
      injection hc2 with h
      exact h.symm
    rw [hmain, hurls, fetchPhase, if_neg (by simp)]
    simp only [List.nil_append] at heq
    rw [heq, hout]
    exact ⟨hcache2, rfl, rfl⟩

/-- Witness for `no_digest_skips_cache`: a stale cache file `[7]` is ignored
(no digest declared), `u1` is attempted and its bytes land at the cache
path. -/
theorem no_digest_skips_cache_witness :
    (∃ t, (runFetch demoHash (demoArgs false none)
        (demoWorld (demoManifest none ["u1", "u2"]) (fsWith demoCached [7])
          demoNetGood)).downloads = "u1" :: t) ∧
    (∀ c, demoNetGood "u1" = some c →
      (runFetch demoHash (demoArgs false none)
        (demoWorld (demoManifest none ["u1", "u2"]) (fsWith demoCached [7])
          demoNetGood)).fs.files demoCached = some c ∧
      (runFetch demoHash (demoArgs false none)
        (demoWorld (demoManifest none ["u1", "u2"]) (fsWith demoCached [7])
          demoNetGood)).outcome = .exited 0 ∧
      (runFetch demoHash (demoArgs false none)
        (demoWorld (demoManifest none ["u1", "u2"]) (fsWith demoCached [7])
          demoNetGood)).stdout = [pathStr demoCached]) :=
  no_digest_skips_cache demoHash (demoArgs false none)
    (demoWorld (demoManifest none ["u1", "u2"]) (fsWith demoCached [7]) demoNetGood)
    (demoManifest none ["u1", "u2"]) (demoEntry none ["u1", "u2"])
    "fam" "v1" "u1" ["u2"] [7] rfl rfl (by decide) rfl rfl (by decide) rfl
    (by decide) rfl

/-- C10: a manifest lacking `family` or `content_version` makes the run crash
with an uncaught exception while computing the cache directory at line 100,
provided the tier resolved with a usable filename: the outcome is neither
exit 0 nor exit 2. -/
theorem missing_family_crashes (hash : Bytes → String) (args : Args) (w : World)
    (m : Manifest) (e : TierEntry)
    (h1 : w.manifest = some m) (h2 : findTier m.tiers args.tier = some e)
    (h4 : pyTruthy (artOf e).filename = true)
    (h5 : m.family = none ∨ m.content_version = none) :
    (runFetch hash args w).outcome = .crashed := by
  rcases h5 with h5 | h5
  · cases hcv : m.content_version <;>
      simp [runFetch, h1, h2, h4, h5, hcv]
  · cases hfam : m.family <;>
      simp [runFetch, h1, h2, h4, h5, hfam]

/-- Witness for `missing_family_crashes`: the concrete manifest missing
`family` crashes the run. -/
theorem missing_family_crashes_witness :
    (runFetch demoHash (demoArgs false none)
        (demoWorld noFamManifest emptyFS demoNetGood)).outcome = .crashed :=
  missing_family_crashes demoHash (demoArgs false none)
    (demoWorld noFamManifest emptyFS demoNetGood) noFamManifest
    (demoEntry (some "ABC123") ["u1"]) rfl rfl (by decide) (Or.inl rfl)

end SBCB
